import Mathlib

set_option maxRecDepth 20000

/-
  Verification development for the Frontier RPC core
  (src/client/rpc/src/lib.rs).

  The embedding below translates the three components of the file:
  - `estimate_gas_binary::execute` : the binary-search gas estimator;
  - `error_on_execution_failure`   : the outcome classifier;
  - `EthDevSigner::sign`/`accounts`: the development transaction signer.

  Machine integers (u8, u32, u64) are modelled as `Nat` with explicit
  `% 2 ^ w` (or `min _ (2 ^ 32 - 1)` for `saturating_add`) exactly where
  the Rust code performs bounded arithmetic.  A Rust panic (slice index
  out of range) is modelled as `Option.none`.  External library
  capabilities (the EVM executor, secp256k1, Keccak) are parameters of
  the embedding, never stubbed into the translated control flow.
-/

namespace Frontier

/-- Execution outcome taxonomy of `pallet_evm::ExitReason`.  The classifier
only inspects the variant and, for `Error`/`Fatal`, the inner value's Debug
rendering, which we carry as the string the Rust `format!("{:?}", e)` would
produce. -/
inductive ExitReason where
  | Succeed : ExitReason
  | Error : String → ExitReason
  | Revert : ExitReason
  | Fatal : String → ExitReason
deriving DecidableEq

/-- `jsonrpc_core::Error` restricted to what the file constructs: an error
code, a message, and an optional `Value::String` payload. -/
structure Error where
  code : Int
  message : String
  data : Option String
deriving DecidableEq

instance {ε α : Type} [DecidableEq ε] [DecidableEq α] :
    DecidableEq (Except ε α) := fun x y =>
  match x, y with
  | Except.ok a, Except.ok b =>
    if h : a = b then Decidable.isTrue (by rw [h])
    else Decidable.isFalse (fun hh => h (by cases hh; rfl))
  | Except.error a, Except.error b =>
    if h : a = b then Decidable.isTrue (by rw [h])
    else Decidable.isFalse (fun hh => h (by cases hh; rfl))
  | Except.ok _, Except.error _ =>
    Decidable.isFalse (fun hh => Except.noConfusion hh)
  | Except.error _, Except.ok _ =>
    Decidable.isFalse (fun hh => Except.noConfusion hh)

/-- `jsonrpc_core::ErrorCode::InternalError` is wire code -32603. -/
def internalErrorCode : Int := -32603

/-- Translation of `internal_err` (src line 162): internal error code,
given message, no data payload. -/
def internal_err (message : String) : Error :=
  { code := internalErrorCode, message := message, data := none }

/-- Lowercase hex digit, as in `rustc_hex`'s character table. -/
def hexDigitChar (n : Nat) : Char :=
  if n < 10 then Char.ofNat (48 + n) else Char.ofNat (97 + (n - 10))

/-- One byte to two lowercase hex digits, as `rustc_hex::ToHex` emits. -/
def byteToHex (b : Nat) : List Char :=
  [hexDigitChar (b % 256 / 16), hexDigitChar (b % 16)]

/-- Translation of `data.to_hex()` (`rustc_hex::ToHex` on `&[u8]`):
lowercase hex of every byte, no `0x` prefix. -/
def toHex (data : List Nat) : String :=
  String.mk (List.foldr (fun b acc => byteToHex b ++ acc) [] data)

/-- UTF-8 decoding with exactly the validity rules of Rust's
`std::str::from_utf8`: rejects bare continuation bytes, overlong forms
(lead bytes 0xC0/0xC1, 0xE0 with second byte < 0xA0, 0xF0 with second
byte < 0x90), surrogates (0xED with second byte ≥ 0xA0), lead bytes above
0xF4, and code points above U+10FFFF (0xF4 with second byte ≥ 0x90).
Returns the decoded scalar values on success. -/
def utf8Decode : List Nat → Option (List Char)
  | [] => some []
  | b0 :: rest =>
    if b0 < 0x80 then
      (utf8Decode rest).map (fun cs => Char.ofNat b0 :: cs)
    else if b0 < 0xC2 then none
    else if b0 < 0xE0 then
      match rest with
      | b1 :: rest1 =>
        if 0x80 ≤ b1 ∧ b1 < 0xC0 then
          (utf8Decode rest1).map
            (fun cs => Char.ofNat ((b0 - 0xC0) * 0x40 + (b1 - 0x80)) :: cs)
        else none
      | [] => none
    else if b0 < 0xF0 then
      match rest with
      | b1 :: b2 :: rest2 =>
        if (0x80 ≤ b1 ∧ b1 < 0xC0) ∧ (0x80 ≤ b2 ∧ b2 < 0xC0) ∧
            (b0 ≠ 0xE0 ∨ 0xA0 ≤ b1) ∧ (b0 ≠ 0xED ∨ b1 < 0xA0) then
          (utf8Decode rest2).map
            (fun cs => Char.ofNat
              ((b0 - 0xE0) * 0x1000 + (b1 - 0x80) * 0x40 + (b2 - 0x80)) :: cs)
        else none
      | _ => none
    else if b0 < 0xF5 then
      match rest with
      | b1 :: b2 :: b3 :: rest3 =>
        if (0x80 ≤ b1 ∧ b1 < 0xC0) ∧ (0x80 ≤ b2 ∧ b2 < 0xC0) ∧
            (0x80 ≤ b3 ∧ b3 < 0xC0) ∧
            (b0 ≠ 0xF0 ∨ 0x90 ≤ b1) ∧ (b0 ≠ 0xF4 ∨ b1 < 0x90) then
          (utf8Decode rest3).map
            (fun cs => Char.ofNat
              ((b0 - 0xF0) * 0x40000 + (b1 - 0x80) * 0x1000 +
                (b2 - 0x80) * 0x40 + (b3 - 0x80)) :: cs)
        else none
      | _ => none
    else none

/-- Translation of `error_on_execution_failure` (src lines 170-205).
Bytes are `Nat` values below 256.  The Rust `data[36..68].iter().sum::<u8>()`
is a u8 (wrapping) sum, hence `% 256`; the unchecked slice
`&data[68..68 + message_len]` panics when it runs past the end of `data`,
which we model as `none`.  All other paths return `some`. -/
def error_on_execution_failure (reason : ExitReason) (data : List Nat) :
    Option (Except Error Unit) :=
  match reason with
  | ExitReason.Succeed => some (Except.ok ())
  | ExitReason.Error e =>
    some (Except.error
      { code := internalErrorCode, message := "evm error: " ++ e,
        data := some "0x" })
  | ExitReason.Revert =>
    let base := "VM Exception while processing transaction: revert"
    if data.length > 68 then
      let message_len := ((data.drop 36).take 32).sum % 256
      if 68 + message_len ≤ data.length then
        let body := (data.drop 68).take message_len
        let message :=
          match utf8Decode body with
          | some cs => base ++ " " ++ String.mk cs
          | none => base
        some (Except.error
          { code := internalErrorCode, message := message,
            data := some (toHex data) })
      else none
    else
      some (Except.error
        { code := internalErrorCode, message := base,
          data := some (toHex data) })
  | ExitReason.Fatal e =>
    some (Except.error
      { code := internalErrorCode, message := "evm fatal: " ++ e,
        data := some "0x" })

/-- u32::MAX, the saturation point of `u32::saturating_add`. -/
def U32_MAX : Nat := 2 ^ 32 - 1

/-- The estimator's midpoint (src line 111):
`current = (high.saturating_add(low)) / 2`. -/
def satMid (low high : Nat) : Nat :=
  (min (high + low) U32_MAX) / 2

/-- The estimator's search loop (src lines 110-150), with an explicit fuel
bound on the number of iterations; `none` means the loop is still running
after `fuel` iterations.  Because the stub backend and the request are fixed
across iterations, the executor's exit reason is a function `probe` of the
probed gas budget `current` alone.  An `Error` outcome moves `low` up to
`current`; any other outcome moves `high` down to `current`; either way the
outcome is retained as the latest witness. -/
def loopGo (probe : Nat → ExitReason) :
    Nat → Nat → Nat → Option ExitReason → Option (Nat × Nat × Option ExitReason)
  | 0, low, high, er =>
    if low + 1 < high then none else some (low, high, er)
  | fuel + 1, low, high, er =>
    if low + 1 < high then
      let current := satMid low high
      match probe current with
      | ExitReason.Error e => loopGo probe fuel current high (some (ExitReason.Error e))
      | r => loopGo probe fuel low current (some r)
    else some (low, high, er)

/-- Translation of `estimate_gas_binary::execute` (src lines 75-159).
`gas` is the request's optional gas field as a U256 value; the code takes
`gas.unwrap_or(U256::max_value()).low_u32()` (truncation `% 2 ^ 32`) as the
search ceiling and 21000 as the floor.  After the loop, a missing witness is
replaced by `ExitFatal::Other("Unknown exit reason")` (whose Debug rendering
the embedded `Fatal` carries), the witness is classified with empty return
data, and on success the final `high` is returned.  `none` propagates loop
fuel exhaustion (the classifier itself cannot panic on empty data). -/
def execute (probe : Nat → ExitReason) (fuel : Nat) (gas : Option Nat) :
    Option (Except Error Nat) :=
  let gas_limit : Nat := gas.getD (2 ^ 256 - 1)
  let high : Nat := gas_limit % 2 ^ 32
  let low : Nat := 21000
  match loopGo probe fuel low high none with
  | none => none
  | some (_, high2, er) =>
    let er2 := er.getD (ExitReason.Fatal "Other(\"Unknown exit reason\")")
    match error_on_execution_failure er2 [] with
    | none => none
    | some (Except.error e) => some (Except.error e)
    | some (Except.ok _) => some (Except.ok high2)

/-- A probe backend that reports a recoverable `Error` exactly below a gas
threshold `T` and succeeds at or above it (the backend family of the
binary-search correctness property). -/
def thresholdProbe (T : Nat) (es : String) : Nat → ExitReason :=
  fun g => if g < T then ExitReason.Error es else ExitReason.Succeed

/-- A probe backend whose every outcome is a recoverable `Error`
(an out-of-gas style failure at every budget). -/
def alwaysOutOfGas : Nat → ExitReason :=
  fun _ => ExitReason.Error "OutOfGas"

/-- The `(low, high)` bound pairs that can arise in the estimator's loop for
a given probe backend: the initial pair `(21000, ceiling)` with any u32
ceiling, and the two loop updates (`low := current` on `Error`,
`high := current` otherwise), each taken only when the loop guard
`low + 1 < high` holds. -/
inductive Reach (probe : Nat → ExitReason) : Nat → Nat → Prop where
  | init (high : Nat) : high < 2 ^ 32 → Reach probe 21000 high
  | stepLow {low high : Nat} (e : String) : Reach probe low high →
      low + 1 < high → probe (satMid low high) = ExitReason.Error e →
      Reach probe (satMid low high) high
  | stepHigh {low high : Nat} : Reach probe low high →
      low + 1 < high → (∀ e, probe (satMid low high) ≠ ExitReason.Error e) →
      Reach probe low (satMid low high)

/-- `ethereum::TransactionAction`: a call to an address or a creation. -/
inductive TransactionAction where
  | Call : Nat → TransactionAction
  | Create : TransactionAction
deriving DecidableEq

/-- `ethereum::TransactionMessage`: the unsigned transaction fields plus the
optional EIP-155 chain id (a u64).  Scalar fields are abstracted to `Nat`;
the signer never computes with them, it only copies them. -/
structure TransactionMessage where
  nonce : Nat
  gas_price : Nat
  gas_limit : Nat
  action : TransactionAction
  value : Nat
  input : List Nat
  chain_id : Option Nat
deriving DecidableEq

/-- `ethereum::TransactionSignature` as the file builds it: the recovery
value `v` and the raw `r`/`s` byte strings sliced from the 64-byte
serialized signature. -/
structure TransactionSignature where
  v : Nat
  r : List Nat
  s : List Nat
deriving DecidableEq

/-- `ethereum::Transaction`: the message fields plus the signature. -/
structure Transaction where
  nonce : Nat
  gas_price : Nat
  gas_limit : Nat
  action : TransactionAction
  value : Nat
  input : List Nat
  signature : TransactionSignature
deriving DecidableEq

/-- Modulus of Rust u64 arithmetic, in which `2 * chain_id + 35 + recid`
is computed. -/
def U64_MOD : Nat := 2 ^ 64

/-- The external cryptographic capabilities `EthDevSigner::sign` and
`accounts` consume, over an abstract secret-key type `K` and parsed-digest
type `H`:
`deriveAddress` is the Keccak-256-of-public-key address derivation
(src lines 240-246 and 257-262); `parseHash` is
`secp256k1::Message::parse_slice(&message.hash())` (src line 265), fallible
as in the source; `ecdsaSign` is `secp256k1::sign`, returning the 64-byte
`signature.serialize()` and `recid.serialize()` (src lines 267, 273); and
`sigNewOk` is the validity check inside `TransactionSignature::new`
(src line 284), which returns `None` exactly when this predicate is false. -/
structure Secp (K H : Type) where
  deriveAddress : K → Nat
  parseHash : TransactionMessage → Option H
  ecdsaSign : H → K → List Nat × Nat
  sigNewOk : TransactionSignature → Bool

/-- The signature the file assembles from a 64-byte serialized signature and
a recovery id (src lines 269-275): `v = 27 + recid` without a chain id and
`v = 2 * chain_id + 35 + recid` in u64 arithmetic with one,
`r = rs[0..32]`, `s = rs[32..64]`. -/
def sigOf (message : TransactionMessage) (sr : List Nat × Nat) :
    TransactionSignature :=
  { v :=
      match message.chain_id with
      | none => 27 + sr.2
      | some chain_id => (2 * chain_id + 35 + sr.2) % U64_MOD,
    r := sr.1.take 32,
    s := (sr.1.drop 32).take 32 }

/-- The key scan inside `EthDevSigner::sign` (src lines 256-290): walk the
keys in order; on the first key whose derived address matches, parse the
message hash (error `"invalid signing message"` on failure), sign, assemble
the signature (error `"signer generated invalid signature"` when
`TransactionSignature::new` rejects it), build the transaction and stop;
`ok none` means the scan exhausted without a match. -/
def signGo {K H : Type} (C : Secp K H) (message : TransactionMessage)
    (address : Nat) : List K → Except Error (Option Transaction)
  | [] => Except.ok none
  | secret :: rest =>
    if C.deriveAddress secret = address then
      match C.parseHash message with
      | none => Except.error (internal_err "invalid signing message")
      | some h =>
        let sig := sigOf message (C.ecdsaSign h secret)
        if C.sigNewOk sig then
          Except.ok (some
            { nonce := message.nonce, gas_price := message.gas_price,
              gas_limit := message.gas_limit, action := message.action,
              value := message.value, input := message.input,
              signature := sig })
        else Except.error (internal_err "signer generated invalid signature")
    else signGo C message address rest

/-- `EthDevSigner`, generalized over the secret-key representation; the
source holds one fixed development key. -/
structure EthDevSigner (K : Type) where
  keys : List K

/-- Translation of `EthDevSigner::accounts` (src lines 239-247): the derived
address of every held key, in key order. -/
def EthDevSigner.accounts {K H : Type} (C : Secp K H)
    (signer : EthDevSigner K) : List Nat :=
  signer.keys.map C.deriveAddress

/-- Translation of `EthDevSigner::sign` (src lines 249-293): run the key
scan; an exhausted scan becomes the error `"signer not available"`
(the key-not-found failure). -/
def EthDevSigner.sign {K H : Type} (C : Secp K H) (signer : EthDevSigner K)
    (message : TransactionMessage) (address : Nat) : Except Error Transaction :=
  match signGo C message address signer.keys with
  | Except.error e => Except.error e
  | Except.ok none => Except.error (internal_err "signer not available")
  | Except.ok (some t) => Except.ok t

/-- Message field of a classification result, when it is an error. -/
def resultMessage : Option (Except Error Unit) → Option String
  | some (Except.error e) => some e.message
  | _ => none

/-- Recovery value of a signing result, when it succeeded. -/
def signedV : Except Error Transaction → Option Nat
  | Except.ok t => some t.signature.v
  | Except.error _ => none

/-- Modelled from the spec: the ABI length field of a revert payload read
as a big-endian unsigned integer, the interpretation §4.3 mandates for
`return_bytes[36..68]` (the code's byte-sum computation is compared
against this). -/
def specBigEndianLen (data : List Nat) : Nat :=
  ((data.drop 36).take 32).foldl (fun acc b => acc * 256 + b) 0

/-- Revert payload for the length-decoding comparison: Error(string)
selector `08c379a0`, offset field 32, a length field whose big-endian value
is 256 but whose byte sum is 1, and a 256-byte ASCII body of `a`. -/
def c4data : List Nat :=
  [8, 195, 121, 160] ++ (List.replicate 31 0 ++ [32]) ++
    (List.replicate 30 0 ++ [1, 0]) ++ List.replicate 256 97

/-- A truncated 69-byte revert payload: all zero except a length-field byte
sum of 2, so the body slice `[68..70]` runs past the end. -/
def c5data : List Nat :=
  List.replicate 67 0 ++ [2, 0]

/-- Revert payload of the round-trip property as the claim literally states
it: selector, offset 32, length field 11, and the 10-byte ASCII body
`out of gas` (78 bytes total, so the 11-byte body slice `[68..79]` runs
past the end). -/
def c7bad : List Nat :=
  [8, 195, 121, 160] ++ (List.replicate 31 0 ++ [32]) ++
    (List.replicate 31 0 ++ [11]) ++
    [111, 117, 116, 32, 111, 102, 32, 103, 97, 115]

/-- Revert payload of the round-trip property with the length field set to
10, the actual byte length of the ASCII body `out of gas`. -/
def c7good : List Nat :=
  [8, 195, 121, 160] ++ (List.replicate 31 0 ++ [32]) ++
    (List.replicate 31 0 ++ [10]) ++
    [111, 117, 116, 32, 111, 102, 32, 103, 97, 115]

/-- A concrete crypto bundle for witnesses: keys are `Nat`, a key's address
is itself, hashing always parses, signing returns 64 zero bytes with
recovery id 0, and every assembled signature passes the validity check. -/
def secpW : Secp Nat Unit :=
  { deriveAddress := fun k => k,
    parseHash := fun _ => some (),
    ecdsaSign := fun _ _ => (List.replicate 64 0, 0),
    sigNewOk := fun _ => true }

/-- A one-key development signer over the witness bundle, key 5. -/
def devKeys : EthDevSigner Nat := { keys := [5] }

/-- Witness message carrying chain id 1. -/
def msgC8 : TransactionMessage :=
  { nonce := 1, gas_price := 2, gas_limit := 3,
    action := TransactionAction.Create, value := 4, input := [7, 7],
    chain_id := some 1 }

/-- The transaction `sign` produces for `msgC8` under the witness bundle:
same fields, `v = 2 * 1 + 35 + 0 = 37`, zero `r`/`s`. -/
def txC8 : Transaction :=
  { nonce := 1, gas_price := 2, gas_limit := 3,
    action := TransactionAction.Create, value := 4, input := [7, 7],
    signature :=
      { v := 37, r := List.replicate 32 0, s := List.replicate 32 0 } }

/-- Message with a chain id of `2 ^ 63`, at which the u64 computation
`2 * chain_id + 35 + recid` wraps. -/
def msgBig : TransactionMessage :=
  { nonce := 0, gas_price := 0, gas_limit := 0,
    action := TransactionAction.Create, value := 0, input := [],
    chain_id := some (2 ^ 63) }

/-- Witness message without a chain id, for the frame property. -/
def msgC10 : TransactionMessage :=
  { nonce := 11, gas_price := 12, gas_limit := 13,
    action := TransactionAction.Call 9, value := 14, input := [1, 2, 3],
    chain_id := none }

/-- The transaction `sign` produces for `msgC10` under the witness bundle:
same fields, `v = 27 + 0`, zero `r`/`s`. -/
def txC10 : Transaction :=
  { nonce := 11, gas_price := 12, gas_limit := 13,
    action := TransactionAction.Call 9, value := 14, input := [1, 2, 3],
    signature :=
      { v := 27, r := List.replicate 32 0, s := List.replicate 32 0 } }

theorem loopGo_done (probe : Nat → ExitReason) (fuel low high : Nat)
    (er : Option ExitReason) (h : ¬ low + 1 < high) :
    loopGo probe fuel low high er = some (low, high, er) := by
  cases fuel <;> simp [loopGo, h]

theorem satMid_between (low high : Nat) (hh : high ≤ 2 ^ 31)
    (hlh : low + 1 < high) :
    low < satMid low high ∧ satMid low high < high ∧
      satMid low high = (high + low) / 2 := by
  simp only [satMid, U32_MAX]
  omega

/-- Against a probe that errors exactly below `T`, a loop state with
`low < T ≤ high`, no saturation possible (`high ≤ 2 ^ 31`) and enough fuel
converges to the interval `(T - 1, T)`, the retained witness being the last
probe's outcome: either the `Error` at `T - 1` or the success at `T`. -/
theorem loopGo_threshold (T : Nat) (es : String) (fuel : Nat) :
    ∀ (low high : Nat) (er : Option ExitReason),
      low < T → T ≤ high → high ≤ 2 ^ 31 → high - low ≤ fuel →
      low + 1 < high →
      loopGo (thresholdProbe T es) fuel low high er =
          some (T - 1, T, some (ExitReason.Error es)) ∨
        loopGo (thresholdProbe T es) fuel low high er =
          some (T - 1, T, some ExitReason.Succeed) := by
  induction fuel with
  | zero =>
    intro low high er h1 h2 h3 h4 h5
    exact absurd h5 (by omega)
  | succ fuel ih =>
    intro low high er h1 h2 h3 h4 h5
    obtain ⟨hml, hmh, hmeq⟩ := satMid_between low high h3 h5
    simp only [loopGo, if_pos h5]
    by_cases hc : satMid low high < T
    · have hp : thresholdProbe T es (satMid low high) = ExitReason.Error es := by
        simp [thresholdProbe, hc]
      rw [hp]
      simp only []
      by_cases hcont : satMid low high + 1 < high
      · exact ih (satMid low high) high _ hc h2 h3 (by omega) hcont
      · rw [loopGo_done _ _ _ _ _ hcont]
        left
        have h6 : satMid low high = T - 1 := by omega
        have h7 : high = T := by omega
        rw [h6, h7]
    · have hp : thresholdProbe T es (satMid low high) = ExitReason.Succeed := by
        simp [thresholdProbe, hc]
      rw [hp]
      simp only []
      by_cases hcont : low + 1 < satMid low high
      · exact ih low (satMid low high) _ h1 (by omega) (by omega) (by omega) hcont
      · rw [loopGo_done _ _ _ _ _ hcont]
        right
        have h6 : low = T - 1 := by omega
        have h7 : satMid low high = T := by omega
        rw [h7, h6]

/-- Against a probe that errors exactly below `T`, a loop state wholly below
the threshold (`high ≤ T`) only ever raises `low`; the loop ends at
`(high - 1, high)` with the `Error` witness retained. -/
theorem loopGo_allerror (T : Nat) (es : String) (fuel : Nat) :
    ∀ (low high : Nat) (er : Option ExitReason),
      high ≤ T → high ≤ 2 ^ 31 → high - low ≤ fuel → low + 1 < high →
      loopGo (thresholdProbe T es) fuel low high er =
        some (high - 1, high, some (ExitReason.Error es)) := by
  induction fuel with
  | zero =>
    intro low high er h1 h2 h3 h4
    exact absurd h4 (by omega)
  | succ fuel ih =>
    intro low high er h1 h2 h3 h4
    obtain ⟨hml, hmh, hmeq⟩ := satMid_between low high h2 h4
    simp only [loopGo, if_pos h4]
    have hp : thresholdProbe T es (satMid low high) = ExitReason.Error es := by
      simp [thresholdProbe]
      omega
    rw [hp]
    simp only []
    by_cases hcont : satMid low high + 1 < high
    · exact ih (satMid low high) high _ h1 h2 (by omega) hcont
    · rw [loopGo_done _ _ _ _ _ hcont]
      have h6 : satMid low high = high - 1 := by omega
      rw [h6]

/-- C1 (corrected): for a probe erroring exactly below `T` and succeeding at
or above it, with `21001 ≤ T`, `21002 ≤ ceiling ≤ 2 ^ 31` and enough fuel,
`execute` either returns exactly `Ok T` or returns the internal error that
classifies the probe's below-threshold `Error` outcome (the latter whenever
the search's final probe fell below `T`); it never returns any other gas
value.  When the threshold is never crossed (`ceiling < T`), the final
witness is necessarily the `Error`, and the classified error — not
`Ok ceiling` — is returned. -/
theorem gas_estimator_threshold_amended (T ceiling fuel : Nat) (es : String)
    (hT : 21001 ≤ T) (hc : 21002 ≤ ceiling) (hc31 : ceiling ≤ 2 ^ 31)
    (hf : ceiling ≤ fuel) :
    (T ≤ ceiling →
      execute (thresholdProbe T es) fuel (some ceiling) =
          some (Except.ok T) ∨
        execute (thresholdProbe T es) fuel (some ceiling) =
          some (Except.error
            { code := internalErrorCode,
              message := "evm error: " ++ es, data := some "0x" })) ∧
    (ceiling < T →
      execute (thresholdProbe T es) fuel (some ceiling) =
        some (Except.error
          { code := internalErrorCode,
            message := "evm error: " ++ es, data := some "0x" })) := by
  have hmod : ceiling % 2 ^ 32 = ceiling :=
    Nat.mod_eq_of_lt (lt_of_le_of_lt hc31 (by norm_num))
  constructor
  · intro hTc
    rcases loopGo_threshold T es fuel 21000 ceiling none (by omega) hTc hc31
        (by omega) (by omega) with h | h
    · right
      simp only [execute, Option.getD_some, hmod, h, error_on_execution_failure]
    · left
      simp only [execute, Option.getD_some, hmod, h, error_on_execution_failure]
  · intro hcT
    have h := loopGo_allerror T es fuel 21000 ceiling none (by omega) hc31
      (by omega) (by omega)
    simp only [execute, Option.getD_some, hmod, h, error_on_execution_failure]

/-- Counterexample to C1 as stated: threshold `T = 21002` inside the bounds
`[21000, 21004]`, yet `execute` returns the classified `evm error` —
because the loop's final probe (at 21001, below the threshold) is the
retained witness — and not `Ok 21002`. -/
theorem gas_estimator_threshold_cex :
    execute (thresholdProbe 21002 "OutOfGas") 100 (some 21004) =
        some (Except.error
          { code := internalErrorCode,
            message := "evm error: OutOfGas", data := some "0x" }) ∧
      execute (thresholdProbe 21002 "OutOfGas") 100 (some 21004) ≠
        some (Except.ok 21002) := by
  exact ⟨by decide, by decide⟩

/-- Witness for the corrected C1 at `T = 21003`, `ceiling = 21008`. -/
theorem gas_estimator_threshold_witness :
    (21003 ≤ 21008 →
      execute (thresholdProbe 21003 "OutOfGas") 21008 (some 21008) =
          some (Except.ok 21003) ∨
        execute (thresholdProbe 21003 "OutOfGas") 21008 (some 21008) =
          some (Except.error
            { code := internalErrorCode,
              message := "evm error: " ++ "OutOfGas", data := some "0x" })) ∧
    (21008 < 21003 →
      execute (thresholdProbe 21003 "OutOfGas") 21008 (some 21008) =
        some (Except.error
          { code := internalErrorCode,
            message := "evm error: " ++ "OutOfGas", data := some "0x" })) :=
  gas_estimator_threshold_amended 21003 21008 21008 "OutOfGas" (by norm_num)
    (by norm_num) (by norm_num) (by norm_num)

theorem loopGo_stuck :
    ∀ (fuel : Nat) (er : Option ExitReason),
      loopGo alwaysOutOfGas fuel 2147483647 4294967295 er = none := by
  intro fuel
  induction fuel with
  | zero =>
    intro er
    simp only [loopGo, if_pos (show 2147483647 + 1 < 4294967295 by norm_num)]
  | succ fuel ih =>
    intro er
    simp only [loopGo, if_pos (show 2147483647 + 1 < 4294967295 by norm_num)]
    have hm : satMid 2147483647 4294967295 = 2147483647 := by decide
    simp only [alwaysOutOfGas, hm]
    exact ih _

/-- C2 (code bug): with the default ceiling `u32::MAX` (no gas given) and a
probe whose every outcome is a recoverable `Error`, the search never
terminates: after the first probe the state is `(2147483647, 4294967295)`,
where the saturating midpoint equals `low`, so `low = current` makes no
progress and the loop runs forever (`execute` exhausts any fuel), far beyond
the claimed `ceil(log2(ceiling - 21000)) = 32` probes. -/
theorem estimator_nonterminating :
    (∀ fuel : Nat, execute alwaysOutOfGas fuel none = none) ∧
      satMid 2147483647 4294967295 = 2147483647 ∧
      2147483647 + 1 < 4294967295 := by
  refine ⟨?_, by decide, by norm_num⟩
  intro fuel
  have hmod : ((2 : Nat) ^ 256 - 1) % 2 ^ 32 = 4294967295 := by norm_num
  have htop : ∀ er, loopGo alwaysOutOfGas fuel 21000 4294967295 er = none := by
    cases fuel with
    | zero =>
      intro er
      simp only [loopGo, if_pos (show 21000 + 1 < 4294967295 by norm_num)]
    | succ fuel =>
      intro er
      simp only [loopGo, if_pos (show 21000 + 1 < 4294967295 by norm_num)]
      have hm : satMid 21000 4294967295 = 2147483647 := by decide
      simp only [alwaysOutOfGas, hm]
      exact loopGo_stuck _ _
  simp [execute, hmod, htop none]

theorem Reach_low_le (probe : Nat → ExitReason) {low high : Nat}
    (h : Reach probe low high) : low ≤ 2147483647 := by
  induction h with
  | init high hh => norm_num
  | stepLow e hr hlt hp ih =>
    simp only [satMid, U32_MAX]
    omega
  | stepHigh hr hlt hp ih => exact ih

/-- C3 (corrected): in every bound pair the loop can reach with the guard
holding, the probed midpoint `(high.saturating_add(low)) / 2` never falls
below `low` and stays below `high`; and whenever `high + low` does not
saturate (`≤ u32::MAX`) it equals the spec's `low + (high - low) / 2`.
Under saturation the two differ (see the counterexample), and the midpoint
can degenerate to `low` itself. -/
theorem midpoint_characterization (probe : Nat → ExitReason) (low high : Nat)
    (hr : Reach probe low high) (hlh : low + 1 < high) :
    low ≤ satMid low high ∧ satMid low high < high ∧
      (high + low ≤ U32_MAX →
        satMid low high = low + (high - low) / 2) := by
  have hinv := Reach_low_le probe hr
  simp only [satMid, U32_MAX]
  omega

/-- Counterexample to C3 as stated: the initial bounds with the default
ceiling `u32::MAX` are reachable, the guard holds, yet the code's saturating
midpoint `2147483647` differs from `low + (high - low) / 2 = 2147494147`. -/
theorem midpoint_formula_cex :
    Reach alwaysOutOfGas 21000 4294967295 ∧ 21000 + 1 < 4294967295 ∧
      satMid 21000 4294967295 ≠ 21000 + (4294967295 - 21000) / 2 :=
  ⟨Reach.init 4294967295 (by norm_num), by norm_num, by decide⟩

/-- Witness for the corrected C3 at the reachable pair `(21000, 30000)`. -/
theorem midpoint_characterization_witness :
    21000 ≤ satMid 21000 30000 ∧ satMid 21000 30000 < 30000 ∧
      (30000 + 21000 ≤ U32_MAX →
        satMid 21000 30000 = 21000 + (30000 - 21000) / 2) :=
  midpoint_characterization alwaysOutOfGas 21000 30000
    (Reach.init 30000 (by norm_num)) (by norm_num)

/-- C6 (confirmed): a gas ceiling of at most 21001 makes the initial
interval zero- or negative-width, so the guard `low + 1 < high` fails at
once: no probe runs, the synthesized
`ExitFatal::Other("Unknown exit reason")` witness is classified, and
`execute` returns that internal error rather than a gas value, for every
probe backend and any fuel. -/
theorem zero_width_interval_internal_error (probe : Nat → ExitReason)
    (fuel g : Nat) (hg : g ≤ 21001) :
    execute probe fuel (some g) =
      some (Except.error
        { code := internalErrorCode,
          message := "evm fatal: Other(\"Unknown exit reason\")",
          data := some "0x" }) := by
  have hmod : g % 2 ^ 32 = g := Nat.mod_eq_of_lt (by omega)
  have hdone := loopGo_done probe fuel 21000 g none (by omega)
  simp only [execute, Option.getD_some, hmod, hdone, Option.getD_none,
    error_on_execution_failure]
  rfl

/-- Witness for C6 at ceiling 21000 with a probe that would revert. -/
theorem zero_width_interval_internal_error_witness :
    execute (fun _ => ExitReason.Revert) 3 (some 21000) =
      some (Except.error
        { code := internalErrorCode,
          message := "evm fatal: Other(\"Unknown exit reason\")",
          data := some "0x" }) :=
  zero_width_interval_internal_error (fun _ => ExitReason.Revert) 3 21000
    (by norm_num)

/-- C4 (code bug): on a well-formed ABI revert payload whose 32-byte length
field encodes 256 big-endian (bytes `... 01 00`) followed by a 256-byte
body of `a`, the code's byte-sum length computation yields 1, so it slices
and appends a single-character body `a` — not the 256-character body the
mandated big-endian interpretation (value 256) selects. -/
theorem revert_length_byte_sum_eval :
    resultMessage (error_on_execution_failure ExitReason.Revert c4data) =
        some "VM Exception while processing transaction: revert a" ∧
      specBigEndianLen c4data = 256 ∧
      ((c4data.drop 36).take 32).sum % 256 = 1 ∧
      c4data.length = 324 :=
  ⟨by decide, by decide, by decide, by decide⟩

/-- C5 (code bug): on a truncated 69-byte revert payload whose length-field
bytes sum to 2, the body slice `data[68..70]` runs past the end of the data
and the Rust code panics (modelled as `none`) instead of returning the
base revert error. -/
theorem revert_truncated_slice_oob :
    error_on_execution_failure ExitReason.Revert c5data = none ∧
      c5data.length = 69 ∧ ((c5data.drop 36).take 32).sum % 256 = 2 :=
  ⟨by decide, by decide, by decide⟩

/-- Counterexample to C7 as stated: with the length field encoding 11 but
the ASCII body `out of gas` being only 10 bytes (78 bytes of data in all),
the body slice `data[68..79]` runs past the end, the code panics (modelled
as `none`), and no error message is produced at all. -/
theorem revert_roundtrip_len11_cex :
    error_on_execution_failure ExitReason.Revert c7bad = none ∧
      c7bad.length = 78 :=
  ⟨by decide, by decide⟩

/-- C7 (corrected): with the length field encoding 10 — the actual byte
length of the ASCII body `out of gas` — classifying the Revert outcome
produces the internal error whose message is the base revert string with
` out of gas` appended, and whose data field is the lowercase hex encoding
of the full 78 input bytes. -/
theorem revert_roundtrip_len10 :
    error_on_execution_failure ExitReason.Revert c7good =
        some (Except.error
          { code := internalErrorCode,
            message :=
              "VM Exception while processing transaction: revert out of gas",
            data := some (toHex c7good) }) ∧
      "VM Exception while processing transaction: revert out of gas" =
        "VM Exception while processing transaction: revert" ++ " out of gas" ∧
      toHex c7good =
        "08c379a0" ++
          "0000000000000000000000000000000000000000000000000000000000000020" ++
          "000000000000000000000000000000000000000000000000000000000000000a" ++
          "6f7574206f6620676173" :=
  ⟨by decide, by decide, by decide⟩

theorem signGo_error_message {K H : Type} (C : Secp K H)
    (message : TransactionMessage) (address : Nat) :
    ∀ (keys : List K) (e : Error),
      signGo C message address keys = Except.error e →
      e.message = "invalid signing message" ∨
        e.message = "signer generated invalid signature" := by
  intro keys
  induction keys with
  | nil =>
    intro e h
    simp [signGo] at h
  | cons k rest ih =>
    intro e h
    by_cases hk : C.deriveAddress k = address
    · rw [signGo, if_pos hk] at h
      cases hp : C.parseHash message with
      | none =>
        rw [hp] at h
        cases h
        left
        rfl
      | some hsh =>
        rw [hp] at h
        simp only [] at h
        by_cases hv : C.sigNewOk (sigOf message (C.ecdsaSign hsh k))
        · rw [if_pos hv] at h
          exact Except.noConfusion h
        · rw [if_neg hv] at h
          cases h
          right
          rfl
    · rw [signGo, if_neg hk] at h
      exact ih e h

theorem signGo_ok_none_iff {K H : Type} (C : Secp K H)
    (message : TransactionMessage) (address : Nat) :
    ∀ keys : List K,
      signGo C message address keys = Except.ok none ↔
        address ∉ keys.map C.deriveAddress := by
  intro keys
  induction keys with
  | nil => simp [signGo]
  | cons k rest ih =>
    by_cases hk : C.deriveAddress k = address
    · rw [signGo, if_pos hk]
      constructor
      · intro h
        exfalso
        cases hp : C.parseHash message with
        | none =>
          rw [hp] at h
          exact Except.noConfusion h
        | some hsh =>
          rw [hp] at h
          simp only [] at h
          by_cases hv : C.sigNewOk (sigOf message (C.ecdsaSign hsh k))
          · rw [if_pos hv] at h
            cases h
          · rw [if_neg hv] at h
            exact Except.noConfusion h
      · intro h
        exact absurd (by simp [hk]) h
    · rw [signGo, if_neg hk]
      rw [ih]
      simp [hk]
      intro h
      exact fun hh => hk hh.symm

theorem signGo_ok_some {K H : Type} (C : Secp K H)
    (message : TransactionMessage) (address : Nat) :
    ∀ (keys : List K) (tx : Transaction),
      signGo C message address keys = Except.ok (some tx) →
      ∃ k, k ∈ keys ∧ C.deriveAddress k = address ∧
        ∃ h, C.parseHash message = some h ∧
          tx = { nonce := message.nonce, gas_price := message.gas_price,
                 gas_limit := message.gas_limit, action := message.action,
                 value := message.value, input := message.input,
                 signature := sigOf message (C.ecdsaSign h k) } := by
  intro keys
  induction keys with
  | nil =>
    intro tx h
    simp [signGo] at h
  | cons k rest ih =>
    intro tx h
    by_cases hk : C.deriveAddress k = address
    · rw [signGo, if_pos hk] at h
      cases hp : C.parseHash message with
      | none =>
        rw [hp] at h
        exact Except.noConfusion h
      | some hsh =>
        rw [hp] at h
        simp only [] at h
        by_cases hv : C.sigNewOk (sigOf message (C.ecdsaSign hsh k))
        · rw [if_pos hv] at h
          cases h
          exact ⟨k, by simp, hk, hsh, rfl, rfl⟩
        · rw [if_neg hv] at h
          exact Except.noConfusion h
    · rw [signGo, if_neg hk] at h
      obtain ⟨k2, hmem, hrest⟩ := ih tx h
      exact ⟨k2, List.mem_cons_of_mem k hmem, hrest⟩

theorem sign_ok_signGo {K H : Type} (C : Secp K H) (signer : EthDevSigner K)
    (message : TransactionMessage) (address : Nat) (tx : Transaction)
    (hsig : EthDevSigner.sign C signer message address = Except.ok tx) :
    signGo C message address signer.keys = Except.ok (some tx) := by
  unfold EthDevSigner.sign at hsig
  cases hg : signGo C message address signer.keys with
  | error e =>
    rw [hg] at hsig
    exact Except.noConfusion hsig
  | ok o =>
    cases o with
    | none =>
      rw [hg] at hsig
      exact Except.noConfusion hsig
    | some t =>
      rw [hg] at hsig
      cases hsig
      rfl

/-- C8 (corrected): every transaction the dev signer successfully returns
was signed with a held key whose derived address matches, and its signature
satisfies: `v = 27 + recovery_id` when the message carries no chain id and
`v = (2 * chain_id + 35 + recovery_id) mod 2 ^ 64` when it does — the
claim's exact `2 * chain_id + 35 + recovery_id` whenever that value fits in
u64, but wrapped (u64 arithmetic) when it does not; `r` and `s` are bytes
0..32 and 32..64 of the 64-byte serialized signature. -/
theorem sign_v_formula {K H : Type} (C : Secp K H) (signer : EthDevSigner K)
    (message : TransactionMessage) (address : Nat) (tx : Transaction)
    (hsig : EthDevSigner.sign C signer message address = Except.ok tx) :
    ∃ k, k ∈ signer.keys ∧ C.deriveAddress k = address ∧
      ∃ h, C.parseHash message = some h ∧
        (message.chain_id = none →
          tx.signature.v = 27 + (C.ecdsaSign h k).2) ∧
        (∀ cid, message.chain_id = some cid →
          tx.signature.v = (2 * cid + 35 + (C.ecdsaSign h k).2) % U64_MOD) ∧
        (∀ cid, message.chain_id = some cid →
          2 * cid + 35 + (C.ecdsaSign h k).2 < U64_MOD →
          tx.signature.v = 2 * cid + 35 + (C.ecdsaSign h k).2) ∧
        tx.signature.r = (C.ecdsaSign h k).1.take 32 ∧
        tx.signature.s = ((C.ecdsaSign h k).1.drop 32).take 32 := by
  obtain ⟨k, hmem, hk, hsh, hp, htx⟩ :=
    signGo_ok_some C message address signer.keys tx
      (sign_ok_signGo C signer message address tx hsig)
  subst htx
  refine ⟨k, hmem, hk, hsh, hp, ?_, ?_, ?_, ?_, ?_⟩
  · intro hcid
    simp [sigOf, hcid]
  · intro cid hcid
    simp [sigOf, hcid]
  · intro cid hcid hlt
    simp [sigOf, hcid]
    exact Nat.mod_eq_of_lt hlt
  · rfl
  · rfl

/-- Counterexample to C8 as stated: under a crypto bundle on which signing
succeeds with recovery id 0, a message with chain id `2 ^ 63` is signed
successfully, but the returned `v` is `35` — the u64-wrapped value of
`2 * 2 ^ 63 + 35 + 0` — not the claimed `2 * chain_id + 35 + recovery_id`. -/
theorem sign_v_overflow_cex :
    EthDevSigner.sign secpW devKeys msgBig 5 = Except.ok
      { nonce := 0, gas_price := 0, gas_limit := 0,
        action := TransactionAction.Create, value := 0, input := [],
        signature := { v := 35, r := List.replicate 32 0,
                       s := List.replicate 32 0 } } ∧
      (35 : Nat) ≠ 2 * 2 ^ 63 + 35 + 0 :=
  ⟨by decide, by decide⟩

/-- Witness for the corrected C8: the witness bundle signs `msgC8`
(chain id 1) into `txC8`, whose `v` is `(2 * 1 + 35 + 0) % 2 ^ 64 = 37`. -/
theorem sign_v_formula_witness :
    ∃ k, k ∈ devKeys.keys ∧ secpW.deriveAddress k = 5 ∧
      ∃ h, secpW.parseHash msgC8 = some h ∧
        (msgC8.chain_id = none →
          txC8.signature.v = 27 + (secpW.ecdsaSign h k).2) ∧
        (∀ cid, msgC8.chain_id = some cid →
          txC8.signature.v = (2 * cid + 35 + (secpW.ecdsaSign h k).2) % U64_MOD) ∧
        (∀ cid, msgC8.chain_id = some cid →
          2 * cid + 35 + (secpW.ecdsaSign h k).2 < U64_MOD →
          txC8.signature.v = 2 * cid + 35 + (secpW.ecdsaSign h k).2) ∧
        txC8.signature.r = (secpW.ecdsaSign h k).1.take 32 ∧
        txC8.signature.s = ((secpW.ecdsaSign h k).1.drop 32).take 32 :=
  sign_v_formula secpW devKeys msgC8 5 txC8 (by decide)

/-- C9 (confirmed): `sign` fails with the key-not-found error (the file's
`"signer not available"` internal error) precisely when the requested
address is absent from `accounts()`; in that case no transaction is
returned, and no other code path produces this error (a found key either
signs or fails with one of the two distinct signing errors). -/
theorem sign_key_not_found_iff {K H : Type} (C : Secp K H)
    (signer : EthDevSigner K) (message : TransactionMessage) (address : Nat) :
    EthDevSigner.sign C signer message address =
        Except.error (internal_err "signer not available") ↔
      address ∉ EthDevSigner.accounts C signer := by
  unfold EthDevSigner.sign EthDevSigner.accounts
  cases hg : signGo C message address signer.keys with
  | error e =>
    constructor
    · intro h
      cases h
      rcases signGo_error_message C message address signer.keys _ hg with
        h1 | h1 <;> (simp only [internal_err] at h1; exact absurd h1 (by decide))
    · intro h
      exfalso
      have := (signGo_ok_none_iff C message address signer.keys).mpr h
      rw [hg] at this
      exact Except.noConfusion this
  | ok o =>
    cases o with
    | none =>
      constructor
      · intro _
        exact (signGo_ok_none_iff C message address signer.keys).mp hg
      · intro _
        rfl
    | some t =>
      constructor
      · intro h
        exact Except.noConfusion h
      · intro h
        exfalso
        have := (signGo_ok_none_iff C message address signer.keys).mpr h
        rw [hg] at this
        cases this

/-- Witness for C9: address 7 is not among the witness signer's accounts
(which are exactly `[5]`), and `sign` returns the key-not-found error. -/
theorem sign_key_not_found_iff_witness :
    EthDevSigner.sign secpW devKeys msgC10 7 =
      Except.error (internal_err "signer not available") :=
  (sign_key_not_found_iff secpW devKeys msgC10 7).mpr (by decide)

/-- C10 (confirmed): a successful `sign` copies `nonce`, `gas_price`,
`gas_limit`, `action`, `value` and `input` from the message into the
returned transaction unchanged; it only adds the signature. -/
theorem sign_preserves_message_fields {K H : Type} (C : Secp K H)
    (signer : EthDevSigner K) (message : TransactionMessage) (address : Nat)
    (tx : Transaction)
    (hsig : EthDevSigner.sign C signer message address = Except.ok tx) :
    tx.nonce = message.nonce ∧ tx.gas_price = message.gas_price ∧
      tx.gas_limit = message.gas_limit ∧ tx.action = message.action ∧
      tx.value = message.value ∧ tx.input = message.input := by
  obtain ⟨k, hmem, hk, hsh, hp, htx⟩ :=
    signGo_ok_some C message address signer.keys tx
      (sign_ok_signGo C signer message address tx hsig)
  subst htx
  exact ⟨rfl, rfl, rfl, rfl, rfl, rfl⟩

/-- Witness for C10: signing `msgC10` with the witness bundle yields
`txC10`, whose message fields coincide with the message's. -/
theorem sign_preserves_message_fields_witness :
    txC10.nonce = msgC10.nonce ∧ txC10.gas_price = msgC10.gas_price ∧
      txC10.gas_limit = msgC10.gas_limit ∧ txC10.action = msgC10.action ∧
      txC10.value = msgC10.value ∧ txC10.input = msgC10.input :=
  sign_preserves_message_fields secpW devKeys msgC10 5 txC10 (by decide)

end Frontier
